import Mathlib

/-!
Verification of the mock enrollment API of the registrar service
(src/registrar/apps/api/v0/views.py), shallowly embedded in Lean 4.

The embedding models:
  - the data records (`Organization`, `Program`, `Submission`),
  - the per-item request validator (the serializer is imported but not
    defined in the sources, so it is modelled from the spec, section 4.3),
  - the insertion-ordered result dictionary used by
    `MockProgramEnrollmentView.post` (`ResultMap` with `mapSet`, `mapGet`,
    `mapContains`, mirroring Python dict semantics for string keys),
  - `MockProgramEnrollmentView.post` itself (`post` / `processItems`),
  - `MockProgramListView.get_queryset` (`get_queryset`).

The fixture dictionaries (`FAKE_PROGRAM_DICT`, `FAKE_ORG_DICT`,
`FAKE_ORG_PROGRAMS`) live outside the given sources, so the embedded
handlers take the directory lookup as an explicit function argument.
-/

namespace Registrar

/-- Organization record: a key and the `metadata_readable` access flag
(the only fields `views.py` reads). -/
structure Organization where
  key : String
  metadata_readable : Bool
deriving Repr, DecidableEq

/-- Program record: a key and its managing organization
(the only fields `views.py` reads). -/
structure Program where
  key : String
  managing_organization : Organization
deriving Repr, DecidableEq

/-- One raw enrollment submission record, as an element of the JSON request
body: each of the two fields may be absent (`none`) or present as a string. -/
structure Submission where
  student_key : Option String
  status : Option String
deriving Repr, DecidableEq

/-- Modelled from the spec: the fixed allowed enrollment-status enumeration
checked by `RequestedLearnerProgramEnrollmentSerializer` (the serializer is
imported, not defined, in the sources). The spec attests "enrolled" as a
valid status and "bogus" as invalid; every theorem below is parametric in
membership of this list. -/
def allowedStatuses : List String := ["enrolled"]

/-- Membership in the allowed status enumeration. -/
def validStatus (st : String) : Bool := allowedStatuses.contains st

/-- Modelled from the spec: the Enrollment Request Validator (spec 4.3,
realized by `RequestedLearnerProgramEnrollmentSerializer`, which is not in
the sources). Returns the list of field names that failed validation, as
`serializer.errors` keys: `status` must be present and in the allowed
enumeration; `student_key` must be present and non-empty. -/
def fieldErrors (e : Submission) : List String :=
  (match e.status with
   | some st => if validStatus st then [] else ["status"]
   | none => ["status"]) ++
  (match e.student_key with
   | some k => if k = "" then ["student_key"] else []
   | none => ["student_key"])

/-- Whether the validator accepts the submission (`serializer.is_valid()`):
the error list is empty. -/
def itemValid (e : Submission) : Bool := decide (fieldErrors e = [])

/-- The value a submission contributes to the result map when its key is not
already present: its status when valid, otherwise the error tag chosen by
the failure branch of `MockProgramEnrollmentView.post`. -/
def itemTag (e : Submission) : String :=
  if itemValid e then e.status.getD ""
  else if (fieldErrors e).contains "status" then "invalid-status"
  else "internal-error"

/-- The result dictionary built by the enrollment loop: an insertion-ordered
association list from student keys to result tags, matching Python `dict`
semantics. -/
abbrev ResultMap := List (String × String)

/-- Python `key in response`. -/
def mapContains (m : ResultMap) (k : String) : Bool :=
  m.any (fun p => p.1 == k)

/-- Python `response[key]` lookup (first, hence unique, binding). -/
def mapGet : ResultMap → String → Option String
  | [], _ => none
  | p :: rest, k => if p.1 == k then some p.2 else mapGet rest k

/-- Python `response[key] = value`: update in place when the key is present,
append otherwise. -/
def mapSet (m : ResultMap) (k v : String) : ResultMap :=
  if mapContains m k then m.map (fun p => if p.1 == k then (k, v) else p)
  else m ++ [(k, v)]

/-- Outcome of `MockProgramEnrollmentView.post`: the Django/DRF exceptions
(`Http404`, `PermissionDenied`, `ValidationError`) and early `Response`
returns, or the final `Response(response, error_status)`. -/
inductive PostResult where
  | http404 : PostResult
  | permissionDenied : PostResult
  | validationError : PostResult
  | batchTooLarge (body : String) : PostResult
  | missingStudentKey (body : String) : PostResult
  | success (resultMap : ResultMap) (status : Nat) : PostResult
deriving Repr, DecidableEq

/-- HTTP status code each outcome maps to at the boundary (`DRF Response`
with `status=None` defaults to 200). -/
def httpStatus : PostResult → Nat
  | .http404 => 404
  | .permissionDenied => 403
  | .validationError => 422
  | .batchTooLarge _ => 413
  | .missingStudentKey _ => 422
  | .success _ s => s

/-- The `for enrollee in request.data` loop of
`MockProgramEnrollmentView.post` (views.py lines 165-190), carrying the
`response` dict and the nullable `error_status`. In the failure branch the
source indexes the raw record (`enrollee['student_key']`); a missing key
raises `KeyError` and aborts the whole request with the literal 422 body. -/
def processItems : List Submission → ResultMap → Option Nat → PostResult
  | [], response, error_status => .success response (error_status.getD 200)
  | enrollee :: rest, response, error_status =>
    if itemValid enrollee then
      let student_key := enrollee.student_key.getD ""
      if mapContains response student_key then
        processItems rest (mapSet response student_key "duplicated") (some 207)
      else
        processItems rest (mapSet response student_key (enrollee.status.getD ""))
          error_status
    else
      match enrollee.student_key with
      | some sk =>
        if (fieldErrors enrollee).contains "status" then
          processItems rest (mapSet response sk "invalid-status") (some 207)
        else
          processItems rest (mapSet response sk "internal-error") (some 207)
      | none => .missingStudentKey "student_key required"

/-- `MockProgramEnrollmentView.post` (views.py lines 149-190). The program
directory (`FAKE_PROGRAM_DICT`, defined outside the sources) is a function
argument; `data = none` models a request body that is not a list. The
`self.program` property (lines 71-79) raises `Http404` before the
`metadata_readable` check runs. -/
def post (FAKE_PROGRAM_DICT : String → Option Program) (program_key : String)
    (data : Option (List Submission)) : PostResult :=
  match FAKE_PROGRAM_DICT program_key with
  | none => .http404
  | some program =>
    if !program.managing_organization.metadata_readable then .permissionDenied
    else
      match data with
      | none => .validationError
      | some submissions =>
        if submissions.length > 25 then .batchTooLarge "enrollement limit 25"
        else processItems submissions [] none

/-- Outcome of `MockProgramListView.get_queryset`. -/
inductive QuerysetResult where
  | queryset (programs : List Program) : QuerysetResult
  | permissionDenied : QuerysetResult
  | http404 : QuerysetResult
deriving Repr, DecidableEq

/-- HTTP status code each listing outcome maps to at the boundary. -/
def qsHttpStatus : QuerysetResult → Nat
  | .queryset _ => 200
  | .permissionDenied => 403
  | .http404 => 404

/-- `MockProgramListView.get_queryset` (views.py lines 54-63). The org
directory (`FAKE_ORG_DICT`) and org-to-programs table (`FAKE_ORG_PROGRAMS`)
are function arguments; `org_param = none` models an absent `org` query
parameter, and Python `if not org_key` also treats the empty string as
falsy. -/
def get_queryset (FAKE_ORG_DICT : String → Option Organization)
    (FAKE_ORG_PROGRAMS : String → List Program)
    (org_param : Option String) : QuerysetResult :=
  match org_param with
  | none => .permissionDenied
  | some org_key =>
    if org_key = "" then .permissionDenied
    else
      match FAKE_ORG_DICT org_key with
      | none => .http404
      | some org =>
        if org.metadata_readable then .queryset (FAKE_ORG_PROGRAMS org.key)
        else .permissionDenied

/-- Sample readable organization, for concrete witnesses. -/
def sampleOrg : Organization := ⟨"org1", true⟩

/-- Sample program managed by the readable organization. -/
def sampleProgram : Program := ⟨"prog1", sampleOrg⟩

/-- Sample non-readable organization. -/
def lockedOrg : Organization := ⟨"org2", false⟩

/-- Sample program managed by the non-readable organization. -/
def lockedProgram : Program := ⟨"prog2", lockedOrg⟩

/-- Sample program directory with one readable and one locked program. -/
def sampleDirectory : String → Option Program := fun k =>
  if k = "prog1" then some sampleProgram
  else if k = "prog2" then some lockedProgram
  else none

/-- Sample organization directory with one readable and one locked org. -/
def sampleOrgDirectory : String → Option Organization := fun k =>
  if k = "org1" then some sampleOrg
  else if k = "org2" then some lockedOrg
  else none

/-! Helper lemmas about the result-map operations. -/

lemma mapContains_iff {m : ResultMap} {k : String} :
    mapContains m k = true ↔ ∃ p ∈ m, p.1 = k := by
  simp [mapContains, List.any_eq_true, beq_iff_eq]

lemma mapContains_append {m l : ResultMap} {k : String} :
    mapContains (m ++ l) k = (mapContains m k || mapContains l k) := by
  simp [mapContains, List.any_append]

lemma mapSet_of_not_contains {m : ResultMap} {k : String}
    (h : mapContains m k = false) (v : String) :
    mapSet m k v = m ++ [(k, v)] := by
  simp [mapSet, h]

lemma mapContains_mapSet_of {m : ResultMap} {k : String}
    (h : mapContains m k = true) (k2 v : String) :
    mapContains (mapSet m k2 v) k = true := by
  unfold mapSet
  split
  · rcases mapContains_iff.mp h with ⟨p, hp, hpk⟩
    rw [mapContains_iff]
    by_cases hk : p.1 = k2
    · refine ⟨(k2, v), List.mem_map.mpr ⟨p, hp, ?_⟩, ?_⟩
      · rw [if_pos (by simpa using hk)]
      · show k2 = k
        rw [← hk]
        exact hpk
    · refine ⟨p, List.mem_map.mpr ⟨p, hp, ?_⟩, hpk⟩
      rw [if_neg (by simpa using hk)]
  · rw [mapContains_append, h, Bool.true_or]

lemma mapGet_append_of_not_contains {k : String} :
    ∀ {m : ResultMap}, mapContains m k = false →
      ∀ (l : ResultMap), mapGet (m ++ l) k = mapGet l k
  | [], _, l => rfl
  | p :: m, h, l => by
    simp only [mapContains, List.any_cons, Bool.or_eq_false_iff] at h
    simp only [List.cons_append, mapGet, h.1, Bool.false_eq_true, if_false]
    exact mapGet_append_of_not_contains (show mapContains m k = false from h.2) l

lemma mapGet_append_ne {k k2 : String} (hne : k ≠ k2) (v : String) :
    ∀ (m : ResultMap), mapGet (m ++ [(k2, v)]) k = mapGet m k
  | [] => by simp [mapGet, Ne.symm hne]
  | p :: m => by
    by_cases hk : p.1 = k
    · simp [mapGet, hk]
    · simp only [List.cons_append, mapGet]
      rw [if_neg (by simpa using hk), if_neg (by simpa using hk)]
      exact mapGet_append_ne hne v m

lemma mapGet_update_self {k v : String} :
    ∀ (m : ResultMap), mapContains m k = true →
      mapGet (m.map fun p => if p.1 == k then (k, v) else p) k = some v
  | [], h => by simp [mapContains] at h
  | p :: m, h => by
    by_cases hpk : p.1 = k
    · rw [List.map_cons, if_pos (by simpa using hpk)]
      simp [mapGet]
    · have h2 : mapContains m k = true := by
        simpa [mapContains, List.any_cons, hpk] using h
      rw [List.map_cons, if_neg (by simpa using hpk)]
      simp only [mapGet]
      rw [if_neg (by simpa using hpk)]
      exact mapGet_update_self m h2

lemma mapGet_update_ne {k k2 v : String} (hne : k ≠ k2) :
    ∀ (m : ResultMap),
      mapGet (m.map fun p => if p.1 == k2 then (k2, v) else p) k = mapGet m k
  | [] => rfl
  | p :: m => by
    by_cases hpk : p.1 = k2
    · rw [List.map_cons, if_pos (by simpa using hpk)]
      simp only [mapGet]
      rw [if_neg (show ¬(k2 == k) = true by simp [Ne.symm hne]),
        if_neg (show ¬(p.1 == k) = true by simp [hpk, Ne.symm hne])]
      exact mapGet_update_ne hne m
    · rw [List.map_cons, if_neg (by simpa using hpk)]
      by_cases hk : p.1 = k
      · simp [mapGet, hk]
      · simp only [mapGet]
        rw [if_neg (by simpa using hk), if_neg (by simpa using hk)]
        exact mapGet_update_ne hne m

lemma mapGet_mapSet_self (m : ResultMap) (k v : String) :
    mapGet (mapSet m k v) k = some v := by
  unfold mapSet
  split
  · exact mapGet_update_self m (by assumption)
  · rename_i h
    rw [mapGet_append_of_not_contains (by simpa using h)]
    simp [mapGet]

lemma mapGet_mapSet_ne {k k2 : String} (hne : k ≠ k2) (m : ResultMap)
    (v : String) : mapGet (mapSet m k2 v) k = mapGet m k := by
  unfold mapSet
  split
  · exact mapGet_update_ne hne m
  · exact mapGet_append_ne hne v m

lemma mapContains_of_mapGet {k v : String} :
    ∀ {m : ResultMap}, mapGet m k = some v → mapContains m k = true
  | [], h => by simp [mapGet] at h
  | p :: m, h => by
    by_cases hk : p.1 = k
    · simp [mapContains, hk]
    · simp only [mapGet] at h
      rw [if_neg (by simpa using hk)] at h
      have := mapContains_of_mapGet h
      simpa [mapContains, List.any_cons, hk] using this

lemma mapGet_of_mem_nodup :
    ∀ {m : ResultMap}, (m.map Prod.fst).Nodup →
      ∀ {p : String × String}, p ∈ m → mapGet m p.1 = some p.2
  | [], _, p, hp => by simp at hp
  | q :: m, hnd, p, hp => by
    rw [List.map_cons, List.nodup_cons] at hnd
    rcases List.mem_cons.mp hp with h | h
    · subst h
      simp [mapGet]
    · have hq : ¬ q.1 = p.1 := by
        intro hc
        refine hnd.1 ?_
        rw [hc]
        exact List.mem_map.mpr ⟨p, h, rfl⟩
      simp only [mapGet]
      rw [if_neg (by simpa using hq)]
      exact mapGet_of_mem_nodup hnd.2 h
/-! Helper lemmas about the validator. -/

lemma itemValid_iff {e : Submission} :
    itemValid e = true ↔ fieldErrors e = [] := by
  simp [itemValid]

lemma itemValid_of {e : Submission} {k st : String}
    (hk : e.student_key = some k) (hk0 : k ≠ "") (hst : e.status = some st)
    (hv : validStatus st = true) : itemValid e = true := by
  rw [itemValid_iff]
  simp [fieldErrors, hk, hst, hv, hk0]

lemma itemValid_elim {e : Submission} (h : itemValid e = true) :
    ∃ k st, e.student_key = some k ∧ k ≠ "" ∧ e.status = some st ∧
      validStatus st = true := by
  rw [itemValid_iff] at h
  rcases e with ⟨sk, st⟩
  cases sk with
  | none => simp [fieldErrors] at h
  | some k =>
    cases st with
    | none => simp [fieldErrors] at h
    | some s =>
      simp only [fieldErrors, List.append_eq_nil] at h
      refine ⟨k, s, rfl, ?_, rfl, ?_⟩
      · intro hc
        rw [if_pos hc] at h
        exact absurd h.2 (by simp)
      · by_contra hc
        rw [if_neg (by simpa using hc)] at h
        exact absurd h.1 (by simp)

lemma itemTag_of_valid {e : Submission} (h : itemValid e = true) :
    itemTag e = e.status.getD "" := by
  simp [itemTag, h]

/-! Behaviour of the enrollment loop on a batch whose keys are present,
pairwise distinct, and fresh with respect to the accumulated result map:
every item lands in the map under its own key with its tag, and the
aggregate status stays untouched exactly when every item is valid. -/

lemma processItems_nodup :
    ∀ (items : List Submission) (resp : ResultMap) (err : Option Nat),
      (∀ e ∈ items, ∃ k, e.student_key = some k ∧ mapContains resp k = false) →
      (items.map Submission.student_key).Nodup →
      processItems items resp err =
        .success
          (resp ++ items.map (fun e => (e.student_key.getD "", itemTag e)))
          ((if items.all itemValid then err else some 207).getD 200)
  | [], resp, err, _, _ => by simp [processItems]
  | e :: rest, resp, err, hfresh, hnd => by
    rcases hfresh e (List.mem_cons_self e rest) with ⟨k, hk, hkf⟩
    rw [List.map_cons, List.nodup_cons] at hnd
    have hknotin : ∀ e2 ∈ rest, e2.student_key ≠ some k := by
      intro e2 he2 hc
      apply hnd.1
      rw [hk, ← hc]
      exact List.mem_map.mpr ⟨e2, he2, rfl⟩
    have hfresh2 : ∀ (v : String), ∀ e2 ∈ rest, ∃ k2,
        e2.student_key = some k2 ∧
        mapContains (resp ++ [(k, v)]) k2 = false := by
      intro v e2 he2
      rcases hfresh e2 (List.mem_cons_of_mem e he2) with ⟨k2, hk2, hk2f⟩
      refine ⟨k2, hk2, ?_⟩
      rw [mapContains_append, hk2f, Bool.false_or]
      simp only [mapContains, List.any_cons, List.any_nil, Bool.or_false]
      rw [beq_eq_false_iff_ne]
      intro hc
      exact hknotin e2 he2 (by rw [hk2, hc])
    by_cases hv : itemValid e = true
    · have htag : itemTag e = e.status.getD "" := itemTag_of_valid hv
      simp only [processItems, hv, if_true, hk, Option.getD_some]
      rw [if_neg (by simp [hkf])]
      rw [mapSet_of_not_contains hkf]
      rw [processItems_nodup rest (resp ++ [(k, e.status.getD "")]) err
        (hfresh2 _) hnd.2]
      simp [htag, hk, hv, List.append_assoc]
    · have hvf : itemValid e = false := by simpa using hv
      simp only [processItems, hk]
      rw [if_neg hv]
      by_cases hs : (fieldErrors e).contains "status" = true
      · have hmem : "status" ∈ fieldErrors e := by simpa using hs
        rw [if_pos hs, mapSet_of_not_contains hkf]
        rw [processItems_nodup rest (resp ++ [(k, "invalid-status")])
          (some 207) (hfresh2 _) hnd.2]
        simp [itemTag, hvf, hmem, hk, ite_self, List.append_assoc]
      · have hnmem : "status" ∉ fieldErrors e := by simpa using hs
        rw [if_neg hs, mapSet_of_not_contains hkf]
        rw [processItems_nodup rest (resp ++ [(k, "internal-error")])
          (some 207) (hfresh2 _) hnd.2]
        simp [itemTag, hvf, hnmem, hk, ite_self, List.append_assoc]

/-! Duplicate handling over all-valid batches: once a key maps to
"duplicated", further valid items keep it "duplicated" and the error status
stays 207. -/

lemma processItems_all_valid_preserved :
    ∀ (items : List Submission) (resp : ResultMap) (k : String),
      (∀ e ∈ items, itemValid e = true) →
      mapGet resp k = some "duplicated" →
      ∃ m, processItems items resp (some 207) = .success m 207 ∧
        mapGet m k = some "duplicated"
  | [], resp, k, _, hdup => ⟨resp, by simp [processItems], hdup⟩
  | e :: rest, resp, k, hval, hdup => by
    have hv : itemValid e = true := hval e (List.mem_cons_self e rest)
    rcases itemValid_elim hv with ⟨sk, st, hsk, _, hst, _⟩
    have hval2 : ∀ e2 ∈ rest, itemValid e2 = true := fun e2 he2 =>
      hval e2 (List.mem_cons_of_mem e he2)
    simp only [processItems, hv, if_true, hsk, Option.getD_some]
    by_cases hc : mapContains resp sk = true
    · rw [if_pos hc]
      apply processItems_all_valid_preserved rest _ k hval2
      by_cases hks : sk = k
      · subst hks
        exact mapGet_mapSet_self resp sk "duplicated"
      · rw [mapGet_mapSet_ne (Ne.symm hks)]
        exact hdup
    · rw [if_neg hc]
      apply processItems_all_valid_preserved rest _ k hval2
      have hks : sk ≠ k := by
        intro hcc
        subst hcc
        exact hc (mapContains_of_mapGet hdup)
      rw [mapGet_mapSet_ne (Ne.symm hks)]
      exact hdup

/-- When the key `k` is already recorded and some later valid item submits
`k` again, an all-valid run ends with `k` mapped to "duplicated" and
aggregate 207. -/
lemma processItems_dup_of_contains :
    ∀ (items : List Submission) (resp : ResultMap) (err : Option Nat)
      (k : String),
      (∀ e ∈ items, itemValid e = true) →
      mapContains resp k = true →
      (∃ e ∈ items, e.student_key = some k) →
      ∃ m, processItems items resp err = .success m 207 ∧
        mapGet m k = some "duplicated"
  | [], _, _, _, _, _, hex => by simp at hex
  | e :: rest, resp, err, k, hval, hcont, hex => by
    have hv : itemValid e = true := hval e (List.mem_cons_self e rest)
    rcases itemValid_elim hv with ⟨sk, st, hsk, _, hst, _⟩
    have hval2 : ∀ e2 ∈ rest, itemValid e2 = true := fun e2 he2 =>
      hval e2 (List.mem_cons_of_mem e he2)
    simp only [processItems, hv, if_true, hsk, Option.getD_some]
    by_cases hks : sk = k
    · subst hks
      rw [if_pos hcont]
      exact processItems_all_valid_preserved rest _ sk hval2
        (mapGet_mapSet_self resp sk "duplicated")
    · have hex2 : ∃ e2 ∈ rest, e2.student_key = some k := by
        rcases hex with ⟨e2, he2, hk2⟩
        rcases List.mem_cons.mp he2 with h | h
        · subst h
          rw [hsk] at hk2
          exact absurd (Option.some.inj hk2) hks
        · exact ⟨e2, h, hk2⟩
      by_cases hc : mapContains resp sk = true
      · rw [if_pos hc]
        exact processItems_dup_of_contains rest _ (some 207) k hval2
          (mapContains_mapSet_of hcont sk "duplicated") hex2
      · rw [if_neg hc]
        exact processItems_dup_of_contains rest _ err k hval2
          (mapContains_mapSet_of hcont sk (e.status.getD "")) hex2

/-- An all-valid batch that submits the key `k` at two positions ends with
`k` mapped to "duplicated" and aggregate 207, from any starting state. -/
lemma processItems_dup_split :
    ∀ (l1 : List Submission) (e0 : Submission) (l2 : List Submission)
      (resp : ResultMap) (err : Option Nat) (k : String),
      (∀ e ∈ l1 ++ e0 :: l2, itemValid e = true) →
      e0.student_key = some k →
      (∃ e2 ∈ l2, e2.student_key = some k) →
      ∃ m, processItems (l1 ++ e0 :: l2) resp err = .success m 207 ∧
        mapGet m k = some "duplicated"
  | [], e0, l2, resp, err, k, hval, hk0, hex => by
    have hv : itemValid e0 = true := hval e0 (by simp)
    have hval2 : ∀ e2 ∈ l2, itemValid e2 = true := fun e2 he2 =>
      hval e2 (by simp [he2])
    simp only [List.nil_append]
    simp only [processItems, hv, if_true, hk0, Option.getD_some]
    by_cases hc : mapContains resp k = true
    · rw [if_pos hc]
      exact processItems_all_valid_preserved l2 _ k hval2
        (mapGet_mapSet_self resp k "duplicated")
    · rw [if_neg hc]
      exact processItems_dup_of_contains l2 _ err k hval2
        (mapContains_of_mapGet (mapGet_mapSet_self resp k _)) hex
  | h :: l1, e0, l2, resp, err, k, hval, hk0, hex => by
    have hv : itemValid h = true := hval h (List.mem_cons_self h _)
    rcases itemValid_elim hv with ⟨sk, st, hsk, _, hst, _⟩
    have hval2 : ∀ e2 ∈ l1 ++ e0 :: l2, itemValid e2 = true := fun e2 he2 =>
      hval e2 (List.mem_cons_of_mem h he2)
    simp only [List.cons_append]
    simp only [processItems, hv, if_true, hsk, Option.getD_some]
    by_cases hc : mapContains resp sk = true
    · rw [if_pos hc]
      exact processItems_dup_split l1 e0 l2 _ (some 207) k hval2 hk0 hex
    · rw [if_neg hc]
      exact processItems_dup_split l1 e0 l2 _ err k hval2 hk0 hex

/-- Reaching any submission with no `student_key` aborts the whole loop with
the literal 422 body, regardless of what was accumulated before. -/
lemma processItems_abort :
    ∀ (items : List Submission) (resp : ResultMap) (err : Option Nat),
      (∃ e ∈ items, e.student_key = none) →
      processItems items resp err = .missingStudentKey "student_key required"
  | [], _, _, hex => by simp at hex
  | e :: rest, resp, err, hex => by
    by_cases hke : e.student_key = none
    · have hvf : ¬ itemValid e = true := by
        rw [itemValid_iff]
        simp [fieldErrors, hke]
      simp only [processItems]
      rw [if_neg hvf, hke]
    · rcases Option.ne_none_iff_exists.mp hke with ⟨k, hk⟩
      have hk : e.student_key = some k := hk.symm
      have hex2 : ∃ e2 ∈ rest, e2.student_key = none := by
        rcases hex with ⟨e2, he2, h2⟩
        rcases List.mem_cons.mp he2 with h | h
        · subst h
          exact absurd h2 hke
        · exact ⟨e2, h, h2⟩
      simp only [processItems, hk, Option.getD_some]
      by_cases hv : itemValid e = true
      · rw [if_pos hv]
        by_cases hc : mapContains resp k = true
        · rw [if_pos hc]
          exact processItems_abort rest _ _ hex2
        · rw [if_neg hc]
          exact processItems_abort rest _ _ hex2
      · rw [if_neg hv]
        by_cases hs : (fieldErrors e).contains "status" = true
        · rw [if_pos hs]
          exact processItems_abort rest _ _ hex2
        · rw [if_neg hs]
          exact processItems_abort rest _ _ hex2

/-- Conversely, when every submission carries a present `student_key`
(empty or not), the loop can never take the `KeyError` abort: it always
completes with a result map, and the final status is 200 or 207. -/
lemma processItems_no_abort :
    ∀ (items : List Submission) (resp : ResultMap) (err : Option Nat),
      (∀ e ∈ items, e.student_key ≠ none) →
      (err = none ∨ err = some 207) →
      ∃ m s, processItems items resp err = .success m s ∧
        (s = 200 ∨ s = 207)
  | [], resp, err, _, herr => by
    rcases herr with h | h
    · exact ⟨resp, 200, by rw [h]; rfl, Or.inl rfl⟩
    · exact ⟨resp, 207, by rw [h]; rfl, Or.inr rfl⟩
  | e :: rest, resp, err, hkeys, herr => by
    have hke := hkeys e (List.mem_cons_self e rest)
    rcases Option.ne_none_iff_exists.mp hke with ⟨k, hk⟩
    have hk : e.student_key = some k := hk.symm
    have hkeys2 : ∀ e2 ∈ rest, e2.student_key ≠ none := fun e2 he2 =>
      hkeys e2 (List.mem_cons_of_mem e he2)
    by_cases hv : itemValid e = true
    · simp only [processItems, hv, if_true, hk, Option.getD_some]
      by_cases hc : mapContains resp k = true
      · rw [if_pos hc]
        exact processItems_no_abort rest _ _ hkeys2 (Or.inr rfl)
      · rw [if_neg hc]
        exact processItems_no_abort rest _ _ hkeys2 herr
    · simp only [processItems, hk]
      rw [if_neg hv]
      by_cases hs : (fieldErrors e).contains "status" = true
      · rw [if_pos hs]
        exact processItems_no_abort rest _ _ hkeys2 (Or.inr rfl)
      · rw [if_neg hs]
        exact processItems_no_abort rest _ _ hkeys2 (Or.inr rfl)

/-- Running the loop over a prefix of present-key submissions reaches the
suffix in some intermediate state; when the key `k` was in the map already
or some prefix item submitted `k` raw, the intermediate map contains `k`
(every processed item writes its raw key, and keys are never removed). -/
lemma processItems_append_step :
    ∀ (l1 rest : List Submission) (resp : ResultMap) (err : Option Nat)
      (k : String),
      (∀ e ∈ l1, e.student_key ≠ none) →
      (mapContains resp k = true ∨ ∃ e ∈ l1, e.student_key = some k) →
      ∃ m1 err1, processItems (l1 ++ rest) resp err =
        processItems rest m1 err1 ∧ mapContains m1 k = true
  | [], rest, resp, err, k, _, hin => by
    rcases hin with h | h
    · exact ⟨resp, err, rfl, h⟩
    · simp at h
  | e :: l1, rest, resp, err, k, hkeys, hin => by
    have hke := hkeys e (List.mem_cons_self e l1)
    rcases Option.ne_none_iff_exists.mp hke with ⟨ke, hkeq⟩
    have hkeq : e.student_key = some ke := hkeq.symm
    have hkeys2 : ∀ e2 ∈ l1, e2.student_key ≠ none := fun e2 he2 =>
      hkeys e2 (List.mem_cons_of_mem e he2)
    have hin2 : ∀ v : String, mapContains (mapSet resp ke v) k = true ∨
        ∃ e2 ∈ l1, e2.student_key = some k := by
      intro v
      rcases hin with h | h
      · exact Or.inl (mapContains_mapSet_of h ke v)
      · rcases h with ⟨e2, he2, h2⟩
        rcases List.mem_cons.mp he2 with h3 | h3
        · have h2b : e.student_key = some k := h3 ▸ h2
          have hek : ke = k := by
            rw [hkeq] at h2b
            exact Option.some.inj h2b
          subst hek
          exact Or.inl (mapContains_of_mapGet (mapGet_mapSet_self resp ke v))
        · exact Or.inr ⟨e2, h3, h2⟩
    rw [List.cons_append]
    by_cases hv : itemValid e = true
    · simp only [processItems, hv, if_true, hkeq, Option.getD_some]
      by_cases hc : mapContains resp ke = true
      · rw [if_pos hc]
        exact processItems_append_step l1 rest _ _ k hkeys2 (hin2 _)
      · rw [if_neg hc]
        exact processItems_append_step l1 rest _ _ k hkeys2 (hin2 _)
    · simp only [processItems, hkeq]
      rw [if_neg hv]
      by_cases hs : (fieldErrors e).contains "status" = true
      · rw [if_pos hs]
        exact processItems_append_step l1 rest _ _ k hkeys2 (hin2 _)
      · rw [if_neg hs]
        exact processItems_append_step l1 rest _ _ k hkeys2 (hin2 _)

/-- Under a resolvable program key, a readable organization, a list body and
an in-bounds batch size, `post` runs the enrollment loop from the empty
result map. -/
lemma post_eq_processItems {dict : String → Option Program}
    {program_key : String} {prog : Program} {subs : List Submission}
    (hdir : dict program_key = some prog)
    (hread : prog.managing_organization.metadata_readable = true)
    (hlen : subs.length ≤ 25) :
    post dict program_key (some subs) = processItems subs [] none := by
  simp [post, hdir, hread, Nat.not_lt.mpr hlen]

/-- C1: a batch of at most 25 submissions, each with a present non-empty
student key and an allowed status, all keys pairwise distinct, against an
existing program whose organization is metadata-readable, yields HTTP 200
("full success") and a result map sending every submitted key to exactly
the submitted status. -/
theorem enroll_valid_batch_full_success
    (dict : String → Option Program) (program_key : String) (prog : Program)
    (subs : List Submission)
    (hdir : dict program_key = some prog)
    (hread : prog.managing_organization.metadata_readable = true)
    (hlen : subs.length ≤ 25)
    (hval : ∀ e ∈ subs, itemValid e = true)
    (hnd : (subs.map Submission.student_key).Nodup) :
    ∃ m, post dict program_key (some subs) = .success m 200 ∧
      httpStatus (post dict program_key (some subs)) = 200 ∧
      ∀ e ∈ subs, mapGet m (e.student_key.getD "") = e.status := by
  have hfresh : ∀ e ∈ subs, ∃ k, e.student_key = some k ∧
      mapContains [] k = false := by
    intro e he
    rcases itemValid_elim (hval e he) with ⟨k, st, hk, _, _, _⟩
    exact ⟨k, hk, rfl⟩
  have hall : subs.all itemValid = true := List.all_eq_true.mpr hval
  have heq := processItems_nodup subs [] none hfresh hnd
  rw [if_pos hall] at heq
  have hpost : post dict program_key (some subs) =
      .success (subs.map fun e => (e.student_key.getD "", itemTag e)) 200 := by
    rw [post_eq_processItems hdir hread hlen, heq]
    simp
  have hkeys : subs.map Submission.student_key =
      (subs.map fun e => e.student_key.getD "").map some := by
    rw [List.map_map]
    apply List.map_congr_left
    intro e he
    rcases itemValid_elim (hval e he) with ⟨k, _, hk, _, _, _⟩
    simp [hk]
  have hndD : (subs.map fun e => e.student_key.getD "").Nodup := by
    rw [hkeys] at hnd
    exact List.Nodup.of_map _ hnd
  have hndL : ((subs.map fun e => (e.student_key.getD "", itemTag e)).map
      Prod.fst).Nodup := by
    rw [List.map_map]
    exact hndD
  refine ⟨subs.map fun e => (e.student_key.getD "", itemTag e), hpost,
    by rw [hpost]; rfl, ?_⟩
  intro e he
  rcases itemValid_elim (hval e he) with ⟨k, st, hk, _, hst, _⟩
  have hmem : (e.student_key.getD "", itemTag e) ∈
      subs.map fun e => (e.student_key.getD "", itemTag e) :=
    List.mem_map.mpr ⟨e, he, rfl⟩
  have := mapGet_of_mem_nodup hndL hmem
  rw [this, itemTag_of_valid (hval e he), hst]
  rfl

/-- C1 witness: a concrete two-element valid batch against the sample
directory, discharging every hypothesis. -/
theorem enroll_valid_batch_full_success_witness :
    ∃ m, post sampleDirectory "prog1"
        (some [⟨some "s1", some "enrolled"⟩, ⟨some "s2", some "enrolled"⟩]) =
      .success m 200 ∧
      httpStatus (post sampleDirectory "prog1"
        (some [⟨some "s1", some "enrolled"⟩, ⟨some "s2", some "enrolled"⟩])) =
        200 ∧
      ∀ e ∈ ([⟨some "s1", some "enrolled"⟩,
              ⟨some "s2", some "enrolled"⟩] : List Submission),
        mapGet m (e.student_key.getD "") = e.status :=
  enroll_valid_batch_full_success sampleDirectory "prog1" sampleProgram
    [⟨some "s1", some "enrolled"⟩, ⟨some "s2", some "enrolled"⟩]
    (by decide) (by decide) (by decide) (by decide) (by decide)

/-- C4: a batch of at most 25 submissions containing an item with no
extractable student key aborts the whole request with the literal 422 body;
the outcome carries no result-map data, whatever the other items were. -/
theorem missing_key_aborts
    (dict : String → Option Program) (program_key : String) (prog : Program)
    (subs : List Submission)
    (hdir : dict program_key = some prog)
    (hread : prog.managing_organization.metadata_readable = true)
    (hlen : subs.length ≤ 25)
    (hex : ∃ e ∈ subs, e.student_key = none) :
    post dict program_key (some subs) =
      .missingStudentKey "student_key required" ∧
    httpStatus (post dict program_key (some subs)) = 422 := by
  have h := processItems_abort subs [] none hex
  rw [post_eq_processItems hdir hread hlen, h]
  exact ⟨rfl, rfl⟩

/-- C4 witness: a valid first item followed by a keyless item still aborts
with the literal 422 body. -/
theorem missing_key_aborts_witness :
    post sampleDirectory "prog1"
      (some [⟨some "a", some "enrolled"⟩, ⟨none, some "enrolled"⟩]) =
      .missingStudentKey "student_key required" ∧
    httpStatus (post sampleDirectory "prog1"
      (some [⟨some "a", some "enrolled"⟩, ⟨none, some "enrolled"⟩])) = 422 :=
  missing_key_aborts sampleDirectory "prog1" sampleProgram
    [⟨some "a", some "enrolled"⟩, ⟨none, some "enrolled"⟩]
    (by decide) (by decide) (by decide) (by decide)

/-- C5: a request body that is not a list fails with the DRF
`ValidationError` (HTTP 422) before any per-item processing, producing no
result map. -/
theorem non_list_body_rejected
    (dict : String → Option Program) (program_key : String) (prog : Program)
    (hdir : dict program_key = some prog)
    (hread : prog.managing_organization.metadata_readable = true) :
    post dict program_key none = .validationError ∧
    httpStatus (post dict program_key none) = 422 := by
  have h : post dict program_key none = .validationError := by
    simp [post, hdir, hread]
  exact ⟨h, by rw [h]; rfl⟩

/-- C5 witness: a non-list body against the readable sample program. -/
theorem non_list_body_rejected_witness :
    post sampleDirectory "prog1" none = .validationError ∧
    httpStatus (post sampleDirectory "prog1" none) = 422 :=
  non_list_body_rejected sampleDirectory "prog1" sampleProgram
    (by decide) (by decide)

/-- C6: a list body with more than 25 elements is rejected whole with the
literal body "enrollement limit 25" and HTTP 413, whatever the elements
are — so no per-item validation runs and no result map is populated. -/
theorem oversized_batch_rejected
    (dict : String → Option Program) (program_key : String) (prog : Program)
    (subs : List Submission)
    (hdir : dict program_key = some prog)
    (hread : prog.managing_organization.metadata_readable = true)
    (hlen : 25 < subs.length) :
    post dict program_key (some subs) =
      .batchTooLarge "enrollement limit 25" ∧
    httpStatus (post dict program_key (some subs)) = 413 := by
  have h : post dict program_key (some subs) =
      .batchTooLarge "enrollement limit 25" := by
    simp [post, hdir, hread, hlen]
  exact ⟨h, by rw [h]; rfl⟩

/-- C6 witness: 26 items, each of which would abort the loop if it were
ever validated, still produce the 413 early return. -/
theorem oversized_batch_rejected_witness :
    post sampleDirectory "prog1"
      (some (List.replicate 26 ⟨none, none⟩)) =
      .batchTooLarge "enrollement limit 25" ∧
    httpStatus (post sampleDirectory "prog1"
      (some (List.replicate 26 ⟨none, none⟩))) = 413 :=
  oversized_batch_rejected sampleDirectory "prog1" sampleProgram
    (List.replicate 26 ⟨none, none⟩) (by decide) (by decide) (by decide)

/-- C2 counterexample: a batch containing two valid items with the same
student key, followed by an invalid item with that key, ends with the key
mapped to "invalid-status", not "duplicated" — refuting the claim as
universally stated. -/
theorem duplicate_key_claim_counterexample :
    post sampleDirectory "prog1"
      (some [⟨some "a", some "enrolled"⟩, ⟨some "a", some "enrolled"⟩,
        ⟨some "a", some "bogus"⟩]) = .success [("a", "invalid-status")] 207 ∧
    mapGet [("a", "invalid-status")] "a" ≠ some "duplicated" := by decide

/-- C2 (amended): over a batch of at most 25 submissions in which every
item passes validation, a repeated student key leaves that key mapped to
"duplicated" with aggregate 207; in particular the two-element repeated
input yields exactly the map sending "a" to "duplicated" with HTTP 207. -/
theorem duplicate_key_all_valid_duplicated :
    (∀ (dict : String → Option Program) (program_key : String)
      (prog : Program) (l1 : List Submission) (e0 : Submission)
      (l2 : List Submission) (k : String),
      dict program_key = some prog →
      prog.managing_organization.metadata_readable = true →
      (l1 ++ e0 :: l2).length ≤ 25 →
      (∀ e ∈ l1 ++ e0 :: l2, itemValid e = true) →
      e0.student_key = some k →
      (∃ e2 ∈ l2, e2.student_key = some k) →
      ∃ m, post dict program_key (some (l1 ++ e0 :: l2)) = .success m 207 ∧
        mapGet m k = some "duplicated" ∧
        httpStatus (post dict program_key (some (l1 ++ e0 :: l2))) = 207) ∧
    post sampleDirectory "prog1"
      (some [⟨some "a", some "enrolled"⟩, ⟨some "a", some "enrolled"⟩]) =
      .success [("a", "duplicated")] 207 := by
  constructor
  · intro dict program_key prog l1 e0 l2 k hdir hread hlen hval hk0 hex
    rcases processItems_dup_split l1 e0 l2 [] none k hval hk0 hex with
      ⟨m, hm, hg⟩
    rw [post_eq_processItems hdir hread hlen, hm]
    exact ⟨m, rfl, hg, rfl⟩
  · decide

/-- C2 witness: the concrete repeated-key all-valid batch, every
hypothesis discharged. -/
theorem duplicate_key_all_valid_duplicated_witness :
    ∃ m, post sampleDirectory "prog1"
        (some [⟨some "a", some "enrolled"⟩, ⟨some "a", some "enrolled"⟩]) =
      .success m 207 ∧
      mapGet m "a" = some "duplicated" ∧
      httpStatus (post sampleDirectory "prog1"
        (some [⟨some "a", some "enrolled"⟩, ⟨some "a", some "enrolled"⟩])) =
        207 :=
  duplicate_key_all_valid_duplicated.1 sampleDirectory "prog1" sampleProgram
    [] ⟨some "a", some "enrolled"⟩ [⟨some "a", some "enrolled"⟩] "a"
    (by decide) (by decide) (by decide) (by decide) (by decide) (by decide)

/-- C3 counterexample: a batch with one invalid-status item followed by a
valid item under the same key ends with that key mapped to "duplicated",
not "invalid-status" — refuting the claim as universally stated. -/
theorem invalid_status_claim_counterexample :
    post sampleDirectory "prog1"
      (some [⟨some "b", some "bogus"⟩, ⟨some "b", some "enrolled"⟩]) =
      .success [("b", "duplicated")] 207 ∧
    mapGet [("b", "duplicated")] "b" ≠ some "invalid-status" := by decide

/-- C3 (amended): over a batch of at most 25 submissions with present,
pairwise-distinct student keys, in which one item has a present key and a
status outside the enumeration while every other item is valid, the result
map sends the bad item's key to "invalid-status", the aggregate is 207,
and every other item still appears with its submitted status; in
particular the one-element bogus-status input yields exactly the map
sending "b" to "invalid-status" with HTTP 207. -/
theorem invalid_status_distinct_keys :
    (∀ (dict : String → Option Program) (program_key : String)
      (prog : Program) (l1 : List Submission) (bad : Submission)
      (l2 : List Submission) (bk bst : String),
      dict program_key = some prog →
      prog.managing_organization.metadata_readable = true →
      (l1 ++ bad :: l2).length ≤ 25 →
      (∀ e ∈ l1 ++ l2, itemValid e = true) →
      bad.student_key = some bk →
      bad.status = some bst →
      validStatus bst = false →
      ((l1 ++ bad :: l2).map Submission.student_key).Nodup →
      ∃ m, post dict program_key (some (l1 ++ bad :: l2)) =
          .success m 207 ∧
        mapGet m bk = some "invalid-status" ∧
        ∀ e ∈ l1 ++ l2, mapGet m (e.student_key.getD "") = e.status) ∧
    post sampleDirectory "prog1" (some [⟨some "b", some "bogus"⟩]) =
      .success [("b", "invalid-status")] 207 := by
  constructor
  · intro dict program_key prog l1 bad l2 bk bst hdir hread hlen hval hbk
      hbst hbad hnd
    have hmemcase : ∀ e ∈ l1 ++ bad :: l2, e = bad ∨ e ∈ l1 ++ l2 := by
      intro e he
      rcases List.mem_append.mp he with h | h
      · exact Or.inr (List.mem_append.mpr (Or.inl h))
      · rcases List.mem_cons.mp h with h | h
        · exact Or.inl h
        · exact Or.inr (List.mem_append.mpr (Or.inr h))
    have hfresh : ∀ e ∈ l1 ++ bad :: l2, ∃ k, e.student_key = some k ∧
        mapContains [] k = false := by
      intro e he
      rcases hmemcase e he with h | h
      · exact ⟨bk, by rw [h]; exact hbk, rfl⟩
      · rcases itemValid_elim (hval e h) with ⟨k, st, hk, _, _, _⟩
        exact ⟨k, hk, rfl⟩
    have hbadmem : bad ∈ l1 ++ bad :: l2 :=
      List.mem_append.mpr (Or.inr (List.mem_cons_self bad l2))
    have hserr : "status" ∈ fieldErrors bad := by
      simp [fieldErrors, hbst, hbad]
    have hbadv : ¬ itemValid bad = true := by
      rw [itemValid_iff]
      intro hc
      rw [hc] at hserr
      exact absurd hserr (List.not_mem_nil _)
    have hallf : ¬ ((l1 ++ bad :: l2).all itemValid = true) := by
      rw [List.all_eq_true]
      intro hc
      exact hbadv (hc bad hbadmem)
    have heq := processItems_nodup (l1 ++ bad :: l2) [] none hfresh hnd
    rw [if_neg hallf] at heq
    have hpost : post dict program_key (some (l1 ++ bad :: l2)) =
        .success ((l1 ++ bad :: l2).map
          fun e => (e.student_key.getD "", itemTag e)) 207 := by
      rw [post_eq_processItems hdir hread hlen, heq]
      simp
    have hkeys : (l1 ++ bad :: l2).map Submission.student_key =
        ((l1 ++ bad :: l2).map fun e => e.student_key.getD "").map some := by
      rw [List.map_map]
      apply List.map_congr_left
      intro e he
      rcases hfresh e he with ⟨k, hk, _⟩
      simp [hk]
    have hndD : ((l1 ++ bad :: l2).map
        fun e => e.student_key.getD "").Nodup := by
      rw [hkeys] at hnd
      exact List.Nodup.of_map _ hnd
    have hndL : (((l1 ++ bad :: l2).map
        fun e => (e.student_key.getD "", itemTag e)).map Prod.fst).Nodup := by
      rw [List.map_map]
      exact hndD
    refine ⟨_, hpost, ?_, ?_⟩
    · have htagbad : itemTag bad = "invalid-status" := by
        simp [itemTag, hbadv, hserr]
      have hmem : (bk, "invalid-status") ∈ (l1 ++ bad :: l2).map
          fun e => (e.student_key.getD "", itemTag e) := by
        refine List.mem_map.mpr ⟨bad, hbadmem, ?_⟩
        rw [hbk, htagbad]
        rfl
      exact mapGet_of_mem_nodup hndL hmem
    · intro e he
      have hein : e ∈ l1 ++ bad :: l2 := by
        rcases List.mem_append.mp he with h | h
        · exact List.mem_append.mpr (Or.inl h)
        · exact List.mem_append.mpr (Or.inr (List.mem_cons_of_mem bad h))
      rcases itemValid_elim (hval e he) with ⟨k, st, hk, _, hst, _⟩
      have hmem : (e.student_key.getD "", itemTag e) ∈
          (l1 ++ bad :: l2).map
            fun e => (e.student_key.getD "", itemTag e) :=
        List.mem_map.mpr ⟨e, hein, rfl⟩
      have hget := mapGet_of_mem_nodup hndL hmem
      rw [hget, itemTag_of_valid (hval e he), hst]
      rfl
  · decide

/-- C3 witness: a valid item plus a bogus-status item with distinct keys,
every hypothesis discharged. -/
theorem invalid_status_distinct_keys_witness :
    ∃ m, post sampleDirectory "prog1"
        (some [⟨some "x", some "enrolled"⟩, ⟨some "b", some "bogus"⟩]) =
      .success m 207 ∧
      mapGet m "b" = some "invalid-status" ∧
      ∀ e ∈ ([⟨some "x", some "enrolled"⟩] : List Submission),
        mapGet m (e.student_key.getD "") = e.status :=
  invalid_status_distinct_keys.1 sampleDirectory "prog1" sampleProgram
    [⟨some "x", some "enrolled"⟩] ⟨some "b", some "bogus"⟩ [] "b" "bogus"
    (by decide) (by decide) (by decide) (by decide) (by decide) (by decide)
    (by decide) (by decide)

/-- C7 counterexample: an item whose `student_key` is present but empty
does not abort the request with 422 — it is recorded as
`"" -> internal-error` with aggregate 207. -/
theorem empty_key_claim_counterexample :
    post sampleDirectory "prog1" (some [⟨some "", some "enrolled"⟩]) =
      .success [("", "internal-error")] 207 ∧
    httpStatus (post sampleDirectory "prog1"
      (some [⟨some "", some "enrolled"⟩])) ≠ 422 := by decide

/-- C7 (amended): an item whose student key is present but empty always
fails the validator (first conjunct, for every status field), yet such an
item never causes the MissingStudentKey abort: over every batch of at most
25 submissions in which each item carries a present student key — empty or
not — against a readable program, the operation completes with a result map
and HTTP 200 or 207 rather than failing with 422 (second conjunct); in
particular the singleton empty-key batch with a valid status yields exactly
the map sending "" to "internal-error" with HTTP 207 (third conjunct). -/
theorem empty_key_internal_error :
    (∀ st : Option String, itemValid ⟨some "", st⟩ = false) ∧
    (∀ (dict : String → Option Program) (program_key : String)
      (prog : Program) (subs : List Submission),
      dict program_key = some prog →
      prog.managing_organization.metadata_readable = true →
      subs.length ≤ 25 →
      (∀ e ∈ subs, e.student_key ≠ none) →
      ∃ m s, post dict program_key (some subs) = .success m s ∧
        (s = 200 ∨ s = 207)) ∧
    (∀ (dict : String → Option Program) (program_key : String)
      (prog : Program) (st : String),
      dict program_key = some prog →
      prog.managing_organization.metadata_readable = true →
      validStatus st = true →
      post dict program_key (some [⟨some "", some st⟩]) =
        .success [("", "internal-error")] 207) := by
  refine ⟨?_, ?_, ?_⟩
  · intro st
    cases st with
    | none => decide
    | some s =>
      by_cases h : validStatus s = true <;> simp [itemValid, fieldErrors, h]
  · intro dict program_key prog subs hdir hread hlen hkeys
    rw [post_eq_processItems hdir hread hlen]
    exact processItems_no_abort subs [] none hkeys (Or.inl rfl)
  · intro dict program_key prog st hdir hread hst
    have herr : fieldErrors ⟨some "", some st⟩ = ["student_key"] := by
      simp [fieldErrors, hst]
    have hvf : itemValid (⟨some "", some st⟩ : Submission) = false := by
      simp [itemValid, herr]
    have hnc : (["student_key"] : List String).contains "status" = false := by
      decide
    rw [post_eq_processItems hdir hread (by simp)]
    simp [processItems, hvf, herr, hnc, mapSet, mapContains]

/-- C7 amended-claim witness: the empty-key item fails validation; a batch
pairing it with a bogus-status item still completes with a result map; the
singleton empty-key batch gives exactly the internal-error map at 207. -/
theorem empty_key_internal_error_witness :
    itemValid ⟨some "", some "enrolled"⟩ = false ∧
    (∃ m s, post sampleDirectory "prog1"
        (some [⟨some "", some "enrolled"⟩, ⟨some "k2", some "bogus"⟩]) =
      .success m s ∧ (s = 200 ∨ s = 207)) ∧
    post sampleDirectory "prog1" (some [⟨some "", some "enrolled"⟩]) =
      .success [("", "internal-error")] 207 :=
  ⟨empty_key_internal_error.1 (some "enrolled"),
   empty_key_internal_error.2.1 sampleDirectory "prog1" sampleProgram
     [⟨some "", some "enrolled"⟩, ⟨some "k2", some "bogus"⟩]
     (by decide) (by decide) (by decide) (by decide),
   empty_key_internal_error.2.2 sampleDirectory "prog1" sampleProgram
     "enrolled" (by decide) (by decide) (by decide)⟩

/-- C8: the structural checks fire in source order — unknown program key
gives 404 whatever the body, an unreadable organization gives 403 whatever
the body, a non-list body gives 422 once the program is readable, and an
oversized list gives 413 whatever its items — so each earlier check
preempts every later one and all of them preempt per-item validation. -/
theorem structural_check_order (dict : String → Option Program)
    (program_key : String) :
    (∀ body, dict program_key = none → post dict program_key body = .http404) ∧
    (∀ prog body, dict program_key = some prog →
      prog.managing_organization.metadata_readable = false →
      post dict program_key body = .permissionDenied) ∧
    (∀ prog, dict program_key = some prog →
      prog.managing_organization.metadata_readable = true →
      post dict program_key none = .validationError) ∧
    (∀ prog subs, dict program_key = some prog →
      prog.managing_organization.metadata_readable = true →
      25 < subs.length →
      post dict program_key (some subs) =
        .batchTooLarge "enrollement limit 25") := by
  refine ⟨?_, ?_, ?_, ?_⟩
  · intro body h
    simp [post, h]
  · intro prog body h hr
    simp [post, h, hr]
  · intro prog h hr
    simp [post, h, hr]
  · intro prog subs h hr hlen
    simp [post, h, hr, hlen]

/-- C8 witness: unknown program with an oversized body yields 404;
unreadable program with a non-list body yields 403; readable program with
non-list body yields 422; readable program with 26 items yields 413. -/
theorem structural_check_order_witness :
    post sampleDirectory "unknown"
      (some (List.replicate 26 ⟨none, none⟩)) = .http404 ∧
    post sampleDirectory "prog2" none = .permissionDenied ∧
    post sampleDirectory "prog1" none = .validationError ∧
    post sampleDirectory "prog1" (some (List.replicate 26 ⟨none, none⟩)) =
      .batchTooLarge "enrollement limit 25" :=
  ⟨(structural_check_order sampleDirectory "unknown").1 _ (by decide),
   (structural_check_order sampleDirectory "prog2").2.1 lockedProgram none
     (by decide) (by decide),
   (structural_check_order sampleDirectory "prog1").2.2.1 sampleProgram
     (by decide) (by decide),
   (structural_check_order sampleDirectory "prog1").2.2.2 sampleProgram _
     (by decide) (by decide) (by decide)⟩

/-- C9: the program listing requires a non-empty `org` query parameter —
absent or empty gives 403 (treated as a privilege failure), an unknown org
key gives 404, and an existing but non-readable organization gives 403. -/
theorem program_list_org_checks (dict : String → Option Organization)
    (progs : String → List Program) :
    (get_queryset dict progs none = .permissionDenied ∧
      qsHttpStatus (get_queryset dict progs none) = 403) ∧
    (get_queryset dict progs (some "") = .permissionDenied ∧
      qsHttpStatus (get_queryset dict progs (some "")) = 403) ∧
    (∀ k, k ≠ "" → dict k = none →
      get_queryset dict progs (some k) = .http404 ∧
      qsHttpStatus (get_queryset dict progs (some k)) = 404) ∧
    (∀ k org, k ≠ "" → dict k = some org → org.metadata_readable = false →
      get_queryset dict progs (some k) = .permissionDenied ∧
      qsHttpStatus (get_queryset dict progs (some k)) = 403) := by
  refine ⟨⟨rfl, rfl⟩,
    ⟨by simp [get_queryset], by simp [get_queryset, qsHttpStatus]⟩, ?_, ?_⟩
  · intro k hk hnone
    have h : get_queryset dict progs (some k) = .http404 := by
      simp [get_queryset, hk, hnone]
    exact ⟨h, by rw [h]; rfl⟩
  · intro k org hk horg hr
    have h : get_queryset dict progs (some k) = .permissionDenied := by
      simp [get_queryset, hk, horg, hr]
    exact ⟨h, by rw [h]; rfl⟩

/-- C9 witness: the sample organization directory with an omitted
parameter, an empty parameter, an unknown org, and a locked org. -/
theorem program_list_org_checks_witness :
    (get_queryset sampleOrgDirectory (fun _ => []) none =
        .permissionDenied ∧
      qsHttpStatus (get_queryset sampleOrgDirectory (fun _ => []) none) =
        403) ∧
    (get_queryset sampleOrgDirectory (fun _ => []) (some "unknown_org") =
        .http404 ∧
      qsHttpStatus (get_queryset sampleOrgDirectory (fun _ => [])
        (some "unknown_org")) = 404) ∧
    (get_queryset sampleOrgDirectory (fun _ => []) (some "org2") =
        .permissionDenied ∧
      qsHttpStatus (get_queryset sampleOrgDirectory (fun _ => [])
        (some "org2")) = 403) :=
  ⟨(program_list_org_checks sampleOrgDirectory (fun _ => [])).1,
   (program_list_org_checks sampleOrgDirectory (fun _ => [])).2.2.1
     "unknown_org" (by decide) (by decide),
   (program_list_org_checks sampleOrgDirectory (fun _ => [])).2.2.2
     "org2" lockedOrg (by decide) (by decide) (by decide)⟩

/-- C10: over every submissions batch of at most 25 items against a
readable program, decomposed as `l1 ++ lat :: l2` where every prefix item
carries a present raw student key, some prefix item submitted the raw key
`k` (so `k` is already recorded when `lat` is reached), and `lat` submits
the raw key `k` again: if `lat` fails validation, the run continues on `l2`
from the map in which the earlier entry for `k` — whatever it was — has
been overwritten in place with "invalid-status" (when `status` is among the
failed fields) or "internal-error" (any other failure shape), and in both
cases the new entry is not "duplicated"; the "duplicated" tag is written at
this collision exactly when `lat` is itself valid. -/
theorem collision_overwrite_semantics
    (dict : String → Option Program) (program_key : String) (prog : Program)
    (l1 : List Submission) (lat : Submission) (l2 : List Submission)
    (k : String)
    (hdir : dict program_key = some prog)
    (hread : prog.managing_organization.metadata_readable = true)
    (hlen : (l1 ++ lat :: l2).length ≤ 25)
    (hkeys : ∀ e ∈ l1, e.student_key ≠ none)
    (hrec : ∃ e ∈ l1, e.student_key = some k)
    (hlk : lat.student_key = some k) :
    ∃ m1 err1, post dict program_key (some (l1 ++ lat :: l2)) =
        processItems (lat :: l2) m1 err1 ∧
      mapContains m1 k = true ∧
      (¬ itemValid lat = true → "status" ∈ fieldErrors lat →
        processItems (lat :: l2) m1 err1 =
          processItems l2 (mapSet m1 k "invalid-status") (some 207) ∧
        mapGet (mapSet m1 k "invalid-status") k = some "invalid-status" ∧
        mapGet (mapSet m1 k "invalid-status") k ≠ some "duplicated") ∧
      (¬ itemValid lat = true → "status" ∉ fieldErrors lat →
        processItems (lat :: l2) m1 err1 =
          processItems l2 (mapSet m1 k "internal-error") (some 207) ∧
        mapGet (mapSet m1 k "internal-error") k = some "internal-error" ∧
        mapGet (mapSet m1 k "internal-error") k ≠ some "duplicated") ∧
      (itemValid lat = true →
        processItems (lat :: l2) m1 err1 =
          processItems l2 (mapSet m1 k "duplicated") (some 207) ∧
        mapGet (mapSet m1 k "duplicated") k = some "duplicated") := by
  rcases processItems_append_step l1 (lat :: l2) [] none k hkeys
    (Or.inr hrec) with ⟨m1, err1, heq, hcont⟩
  refine ⟨m1, err1, ?_, hcont, ?_, ?_, ?_⟩
  · rw [post_eq_processItems hdir hread hlen, heq]
  · intro hnv hs
    have hsb : (fieldErrors lat).contains "status" = true := by simpa using hs
    refine ⟨?_, mapGet_mapSet_self m1 k _, ?_⟩
    · simp only [processItems, hlk]
      rw [if_neg hnv, if_pos hsb]
    · rw [mapGet_mapSet_self]
      decide
  · intro hnv hs
    refine ⟨?_, mapGet_mapSet_self m1 k _, ?_⟩
    · simp only [processItems, hlk]
      rw [if_neg hnv, if_neg (by simpa using hs)]
    · rw [mapGet_mapSet_self]
      decide
  · intro hv
    refine ⟨?_, mapGet_mapSet_self m1 k _⟩
    simp only [processItems, hv, if_true, hlk, Option.getD_some]
    rw [if_pos hcont]

/-- C10 witness: three concrete one-item prefixes with a colliding second
item — invalid status (overwritten to "invalid-status"), empty-key failure
shape (overwritten to "internal-error"), and a valid duplicate
("duplicated") — each obtained from the universal theorem. -/
theorem collision_overwrite_semantics_witness :
    (∃ m1 err1, post sampleDirectory "prog1"
        (some [⟨some "a", some "enrolled"⟩, ⟨some "a", some "bogus"⟩]) =
        processItems [⟨some "a", some "bogus"⟩] m1 err1 ∧
      mapContains m1 "a" = true ∧
      (¬ itemValid ⟨some "a", some "bogus"⟩ = true →
        "status" ∈ fieldErrors ⟨some "a", some "bogus"⟩ →
        processItems [⟨some "a", some "bogus"⟩] m1 err1 =
          processItems [] (mapSet m1 "a" "invalid-status") (some 207) ∧
        mapGet (mapSet m1 "a" "invalid-status") "a" =
          some "invalid-status" ∧
        mapGet (mapSet m1 "a" "invalid-status") "a" ≠ some "duplicated") ∧
      (¬ itemValid ⟨some "a", some "bogus"⟩ = true →
        "status" ∉ fieldErrors ⟨some "a", some "bogus"⟩ →
        processItems [⟨some "a", some "bogus"⟩] m1 err1 =
          processItems [] (mapSet m1 "a" "internal-error") (some 207) ∧
        mapGet (mapSet m1 "a" "internal-error") "a" =
          some "internal-error" ∧
        mapGet (mapSet m1 "a" "internal-error") "a" ≠ some "duplicated") ∧
      (itemValid ⟨some "a", some "bogus"⟩ = true →
        processItems [⟨some "a", some "bogus"⟩] m1 err1 =
          processItems [] (mapSet m1 "a" "duplicated") (some 207) ∧
        mapGet (mapSet m1 "a" "duplicated") "a" = some "duplicated")) ∧
    (∃ m1 err1, post sampleDirectory "prog1"
        (some [⟨some "", some "bogus"⟩, ⟨some "", some "enrolled"⟩]) =
        processItems [⟨some "", some "enrolled"⟩] m1 err1 ∧
      mapContains m1 "" = true ∧
      (¬ itemValid ⟨some "", some "enrolled"⟩ = true →
        "status" ∈ fieldErrors ⟨some "", some "enrolled"⟩ →
        processItems [⟨some "", some "enrolled"⟩] m1 err1 =
          processItems [] (mapSet m1 "" "invalid-status") (some 207) ∧
        mapGet (mapSet m1 "" "invalid-status") "" =
          some "invalid-status" ∧
        mapGet (mapSet m1 "" "invalid-status") "" ≠ some "duplicated") ∧
      (¬ itemValid ⟨some "", some "enrolled"⟩ = true →
        "status" ∉ fieldErrors ⟨some "", some "enrolled"⟩ →
        processItems [⟨some "", some "enrolled"⟩] m1 err1 =
          processItems [] (mapSet m1 "" "internal-error") (some 207) ∧
        mapGet (mapSet m1 "" "internal-error") "" =
          some "internal-error" ∧
        mapGet (mapSet m1 "" "internal-error") "" ≠ some "duplicated") ∧
      (itemValid ⟨some "", some "enrolled"⟩ = true →
        processItems [⟨some "", some "enrolled"⟩] m1 err1 =
          processItems [] (mapSet m1 "" "duplicated") (some 207) ∧
        mapGet (mapSet m1 "" "duplicated") "" = some "duplicated")) ∧
    (∃ m1 err1, post sampleDirectory "prog1"
        (some [⟨some "a", some "enrolled"⟩, ⟨some "a", some "enrolled"⟩]) =
        processItems [⟨some "a", some "enrolled"⟩] m1 err1 ∧
      mapContains m1 "a" = true ∧
      (¬ itemValid ⟨some "a", some "enrolled"⟩ = true →
        "status" ∈ fieldErrors ⟨some "a", some "enrolled"⟩ →
        processItems [⟨some "a", some "enrolled"⟩] m1 err1 =
          processItems [] (mapSet m1 "a" "invalid-status") (some 207) ∧
        mapGet (mapSet m1 "a" "invalid-status") "a" =
          some "invalid-status" ∧
        mapGet (mapSet m1 "a" "invalid-status") "a" ≠ some "duplicated") ∧
      (¬ itemValid ⟨some "a", some "enrolled"⟩ = true →
        "status" ∉ fieldErrors ⟨some "a", some "enrolled"⟩ →
        processItems [⟨some "a", some "enrolled"⟩] m1 err1 =
          processItems [] (mapSet m1 "a" "internal-error") (some 207) ∧
        mapGet (mapSet m1 "a" "internal-error") "a" =
          some "internal-error" ∧
        mapGet (mapSet m1 "a" "internal-error") "a" ≠ some "duplicated") ∧
      (itemValid ⟨some "a", some "enrolled"⟩ = true →
        processItems [⟨some "a", some "enrolled"⟩] m1 err1 =
          processItems [] (mapSet m1 "a" "duplicated") (some 207) ∧
        mapGet (mapSet m1 "a" "duplicated") "a" = some "duplicated")) :=
  ⟨collision_overwrite_semantics sampleDirectory "prog1" sampleProgram
     [⟨some "a", some "enrolled"⟩] ⟨some "a", some "bogus"⟩ [] "a"
     (by decide) (by decide) (by decide) (by decide) (by decide) (by decide),
   collision_overwrite_semantics sampleDirectory "prog1" sampleProgram
     [⟨some "", some "bogus"⟩] ⟨some "", some "enrolled"⟩ [] ""
     (by decide) (by decide) (by decide) (by decide) (by decide) (by decide),
   collision_overwrite_semantics sampleDirectory "prog1" sampleProgram
     [⟨some "a", some "enrolled"⟩] ⟨some "a", some "enrolled"⟩ [] "a"
     (by decide) (by decide) (by decide) (by decide) (by decide) (by decide)⟩

end Registrar
